import Mathlib

/-!
Verification of the EPUB conversion script (convert-epub.py).

The script is embedded shallowly:
- YAML navigation values become the inductive family `NavItem` /
  `NavItems` / `NavEntries` (a value is a string, a list, a dict whose
  values are traversed in iteration order, or some other scalar such as
  a number, boolean or null, represented by `NavItem.other`).
- The filesystem is abstracted by an existence predicate
  `fs : String → Bool` (the answer of os.path.exists) and, for the
  directory walk, by the tree type `DirTree` / `DirEntries`.
- Prints to stdout/stderr and process exits become explicit data:
  `extract_md_files` returns the pair (returned file list, warnings
  printed to stderr, in emission order), and the subprocess phase of
  `main` becomes `runPhase`, returning the event trace and the exit
  code.
- POSIX path arithmetic (os.path.join, os.path.dirname,
  os.path.relpath) is modelled by transparent functions on the
  character data of strings.
-/

/-! ## POSIX path arithmetic -/

/-- Does the string begin with the path separator? (str.startswith(sep)) -/
def startsWithSep (b : String) : Bool :=
  match b.data with
  | [] => false
  | c :: _ => c = '/'

/-- Does the string end with the path separator? (str.endswith(sep)) -/
def endsWithSep (a : String) : Bool :=
  match a.data.getLast? with
  | some c => c = '/'
  | none => false

/-- os.path.join for two arguments (posixpath.join): if the second part
is absolute it wins; otherwise it is appended, inserting a slash unless
the first part is empty or already ends with one. -/
def osPathJoin (a b : String) : String :=
  if startsWithSep b then b
  else if a = "" || endsWithSep a then a ++ b
  else a ++ "/" ++ b

/-- str.replace of every backslash by a slash (a one-character
replacement is a character map). -/
def normSlashes (s : String) : String :=
  String.mk (s.data.map (fun c => if c = '\\' then '/' else c))

/-- Split a character list at every slash (str.split(sep)). -/
def splitOnSlash : List Char → List (List Char)
  | [] => [[]]
  | c :: cs =>
    match splitOnSlash cs with
    | [] => [[c]]
    | p :: ps => if c = '/' then [] :: p :: ps else (c :: p) :: ps

/-- The non-empty slash-separated components of a path, as
posixpath.relpath computes them. -/
def splitParts (s : String) : List String :=
  ((splitOnSlash s.data).map String.mk).filter (fun p => p ≠ "")

/-- Length of the common prefix of two component lists
(os.path.commonprefix on lists). -/
def commonPrefixLen : List String → List String → Nat
  | a :: as, b :: bs => if a = b then commonPrefixLen as bs + 1 else 0
  | _, _ => 0

/-- os.path.relpath (posixpath.relpath) for paths interpreted relative
to one common working directory and free of "." and ".." components:
drop the common prefix of the component lists, climb out of what is
left of the start and descend into what is left of the path. -/
def osPathRelpath (path start : String) : String :=
  let ps := splitParts path
  let ss := splitParts start
  let i := commonPrefixLen ss ps
  let rel := List.replicate (ss.length - i) ".." ++ ps.drop i
  if rel = [] then "." else String.intercalate "/" rel

/-- The head of a character list up to and including the last slash,
then stripped of trailing slashes unless it consists only of slashes
(posixpath.dirname). -/
def dirnameData (l : List Char) : List Char :=
  let head := (l.reverse.dropWhile (fun c => c ≠ '/')).reverse
  if head.all (fun c => c = '/') then head
  else (head.reverse.dropWhile (fun c => c = '/')).reverse

/-- os.path.dirname (posixpath.dirname). -/
def osPathDirname (p : String) : String :=
  String.mk (dirnameData p.data)

/-- str.endswith(suffix): the suffix's characters are a suffix of the
string's characters. -/
def strEndsWith (s suf : String) : Bool :=
  suf.data.isSuffixOf s.data

/-! ## Navigation values and the flattener extract_md_files -/

mutual
inductive NavItem where
  | str (s : String)
  | list (items : NavItems)
  | dict (entries : NavEntries)
  | other (tag : String)
inductive NavItems where
  | nil
  | cons (head : NavItem) (tail : NavItems)
inductive NavEntries where
  | nil
  | cons (key : String) (value : NavItem) (tail : NavEntries)
end

/-- The elements of a navigation list, in order. -/
def NavItems.toList : NavItems → List NavItem
  | .nil => []
  | .cons x xs => x :: xs.toList

/-- The values of a navigation mapping, in iteration order
(dict.values()). -/
def NavEntries.values : NavEntries → List NavItem
  | .nil => []
  | .cons _ v rest => v :: rest.values

mutual
/-- extract_md_files(item, depth): first component the returned list of
relative paths, second component the warnings printed to stderr, in
emission order. `fs` answers os.path.exists. -/
def extract_md_files (fs : String → Bool) (item : NavItem) (depth : Nat) :
    List String × List String :=
  if 100 < depth then ([], ["Warning: Infinite recursion detected"])
  else
    match item with
    | .str s =>
      let path := osPathJoin "docs" s
      if fs path then ([s], [])
      else ([], ["Warning: Markdown file not found: " ++ path])
    | .list subs => extract_md_files_over_list fs subs (depth + 1)
    | .dict entries => extract_md_files_over_dict fs entries (depth + 1)
    | .other _ => ([], [])

/-- The loop `for sub in item: files += extract_md_files(sub, depth+1)`:
results concatenated in element order. -/
def extract_md_files_over_list (fs : String → Bool) (items : NavItems) (depth : Nat) :
    List String × List String :=
  match items with
  | .nil => ([], [])
  | .cons x xs =>
    let a := extract_md_files fs x depth
    let b := extract_md_files_over_list fs xs depth
    (a.1 ++ b.1, a.2 ++ b.2)

/-- The loop `for value in item.values(): files += ...`: results
concatenated in iteration order of the mapping's values. -/
def extract_md_files_over_dict (fs : String → Bool) (entries : NavEntries) (depth : Nat) :
    List String × List String :=
  match entries with
  | .nil => ([], [])
  | .cons _ v kvs =>
    let a := extract_md_files fs v depth
    let b := extract_md_files_over_dict fs kvs depth
    (a.1 ++ b.1, a.2 ++ b.2)
end

/-- config.get("nav", []): the navigation entry of the loaded
configuration (the spec calls this entry "navigation"), defaulting to
an empty list. -/
def navOf (config : List (String × NavItem)) : NavItem :=
  match config.find? (fun kv => kv.1 = "nav") with
  | some kv => kv.2
  | none => .list .nil

/-- A navigation value of n nested single-element lists around one
string leaf. -/
def deepNest : Nat → NavItem
  | 0 => .str "x"
  | n + 1 => .list (.cons (deepNest n) .nil)

/-! ## Directory trees and find_asset_dirs -/

mutual
inductive DirTree where
  | node (entries : DirEntries)
inductive DirEntries where
  | nil
  | cons (name : String) (sub : DirTree) (rest : DirEntries)
end

/-- The names of a directory's immediate subdirectories, in listing
order (the dirnames of os.walk). -/
def DirEntries.names : DirEntries → List String
  | .nil => []
  | .cons n _ rest => n :: rest.names

mutual
/-- os.walk (topdown, directories only): the directory itself first,
then the full walk of each subdirectory in listing order. -/
def walk (dirpath : String) (t : DirTree) : List (String × List String) :=
  match t with
  | .node entries => (dirpath, entries.names) :: walkEntries dirpath entries

def walkEntries (dirpath : String) (es : DirEntries) : List (String × List String) :=
  match es with
  | .nil => []
  | .cons n sub rest => walk (osPathJoin dirpath n) sub ++ walkEntries dirpath rest
end

/-- The four path variants recorded for one matching directory `d`
found under `dirpath`: the joined path with normalized separators, its
dirname, its path relative to the walk root, and that relative path
re-prefixed with the documents root name. -/
def assetVariants (root dirpath d : String) : List String :=
  let full_path := normSlashes (osPathJoin dirpath d)
  let rel_path := normSlashes (osPathRelpath full_path root)
  [full_path,
   normSlashes (osPathDirname full_path),
   rel_path,
   normSlashes (osPathJoin "docs" rel_path)]

/-- find_asset_dirs(root): over every walk entry, every subdirectory
name ending in ".assets" contributes its four path variants; the result
is the set (here: deduplicated list) of all of them. -/
def find_asset_dirs (root : String) (t : DirTree) : List String :=
  ((walk root t).flatMap (fun e =>
    (e.2.filter (fun d => strEndsWith d ".assets")).flatMap
      (assetVariants root e.1))).dedup

/-! ## String ordering (Python sorted on strings compares by code
points, lexicographically) -/

/-- Lexicographic less-or-equal on character lists, by code points. -/
def lexLe : List Char → List Char → Bool
  | [], _ => true
  | _ :: _, [] => false
  | a :: as, b :: bs => if a < b then true else if a = b then lexLe as bs else false

/-- Lexicographic less-or-equal on strings, as Python compares them. -/
def strLe (a b : String) : Bool := lexLe a.data b.data

/-! ## Command building (main, lines 74–109) -/

/-- The fixed base_dirs list of main, before the conditional append. -/
def base_dirs : List String := [".", "docs", "assets", "../assets"]

/-- sorted(set(base_dirs + asset_dirs)) where base_dirs has already had
os.path.join("..", "assets") appended when that directory exists: the
sorted, deduplicated union. Any correct sort of a duplicate-free list
under a total order yields the one canonical result, so insertion sort
stands in for Python's sorted. -/
def all_dirs (parentAssetsExists : Bool) (asset_dirs : List String) : List String :=
  List.insertionSort (fun a b => strLe a b = true)
    ((base_dirs ++ (if parentAssetsExists then [osPathJoin ".." "assets"] else [])
      ++ asset_dirs).dedup)

/-- resource_path = ":".join(all_dirs). -/
def resource_path (parentAssetsExists : Bool) (asset_dirs : List String) : String :=
  String.intercalate ":" (all_dirs parentAssetsExists asset_dirs)

/-- Line 78: md_files_prefixed keeps the truthy (non-empty) flattened
entries, each joined under the documents root. -/
def md_files_prefixed (files : List String) : List String :=
  (files.filter (fun md => md ≠ "")).map (fun md => osPathJoin "docs" md)

/-- Lines 89–109: the pandoc command line, 19 fixed arguments followed
by the prefixed input files. -/
def pandocCmd (resourcePath : String) (prefixedFiles : List String) : List String :=
  ["pandoc", "-o", "hello_algo.epub", "--toc", "--toc-depth=2",
   "--metadata", "title=Hello Algo", "--resource-path", resourcePath,
   "--mathjax", "--verbose", "--extract-media=extracted-media",
   "--wrap=none", "-t", "epub3", "--highlight-style=pygments",
   "-f", "markdown+fenced_code_blocks+fenced_code_attributes",
   "--epub-cover-image=./docs/assets/covers/chapter_hello_algo.jpg"]
  ++ prefixedFiles

/-! ## Subprocess phase of main (lines 111–143) -/

/-- One observable step of the program: invoking the external tool,
printing a line to stdout or stderr, or attempting removal of a
directory tree. -/
inductive Event where
  | runTool (cmd : List String)
  | printOut (s : String)
  | printErr (s : String)
  | removeDir (d : String)

/-- The data of a subprocess.TimeoutExpired exception, each field
already formatted as it is interpolated into the printed line. -/
structure TimeoutInfo where
  msg : String
  stdoutText : String
  stderrText : String

/-- The result of the one subprocess.run call: either the timeout
exception, or completion with captured stdout, captured stderr and the
return code. -/
inductive RunOutcome where
  | timedOut (e : TimeoutInfo)
  | completed (stdout stderr : String) (returncode : Int)

/-- Is this event an invocation of the external tool? -/
def isRunToolEvent : Event → Bool
  | .runTool _ => true
  | _ => false

/-- Lines 111–143 of main, from the subprocess.run call on: the emitted
event trace and the program's exit code. On timeout: message to stderr,
partial streams echoed, exit 1. On completion: stdout always echoed,
stderr echoed when non-empty; non-zero return code reported and fatal;
otherwise best-effort removal of extracted-media, whose failure is
reported but not fatal. -/
def runPhase (cmd : List String) (outcome : RunOutcome)
    (mediaDirExists : Bool) (rmtreeError : Option String) : List Event × Nat :=
  match outcome with
  | .timedOut e =>
    ([.runTool cmd,
      .printErr ("Pandoc timed out: " ++ e.msg),
      .printOut ("stdout: " ++ e.stdoutText),
      .printErr ("stderr: " ++ e.stderrText)], 1)
  | .completed out err rc =>
    let pre := [Event.runTool cmd, Event.printOut out] ++
      (if err = "" then [] else [Event.printErr err])
    if rc ≠ 0 then
      (pre ++ [Event.printErr ("Pandoc failed with return code " ++ toString rc)], 1)
    else if mediaDirExists then
      match rmtreeError with
      | none =>
        (pre ++ [Event.removeDir "extracted-media",
          Event.printOut "Cleaned up temporary files in extracted-media"], 0)
      | some emsg =>
        (pre ++ [Event.removeDir "extracted-media",
          Event.printErr ("Error cleaning up extracted-media: " ++ emsg)], 0)
    else (pre, 0)

/-! ## Concrete inputs used by closed statements -/

/-- The filesystem of the C2 scenario: docs/intro.md and docs/a.md
exist, docs/b.md does not. -/
def fsC2 : String → Bool :=
  fun p => decide (p = "docs/intro.md") || decide (p = "docs/a.md")

/-- The loaded configuration of the C2 scenario: its navigation entry
is the list of the leaf "intro.md" and a one-key mapping from "Part 1"
to the list of the leaves "a.md" and "b.md". -/
def configC2 : List (String × NavItem) :=
  [("nav", .list (.cons (.str "intro.md")
    (.cons (.dict (.cons "Part 1"
      (.list (.cons (.str "a.md") (.cons (.str "b.md") .nil))) .nil)) .nil)))]

/-! ## Theorems about the flattener -/

/-- The two components of the loop over a list's elements are the
concatenations, in element order, of the components of the recursive
results. -/
theorem extract_over_list_eq (fs : String → Bool) :
    ∀ (xs : NavItems) (d : Nat),
      extract_md_files_over_list fs xs d
        = (((NavItems.toList xs).map (fun x => (extract_md_files fs x d).1)).flatten,
           ((NavItems.toList xs).map (fun x => (extract_md_files fs x d).2)).flatten)
  | .nil, d => by simp [extract_md_files_over_list, NavItems.toList]
  | .cons x xs, d => by
    rw [extract_md_files_over_list]
    simp [NavItems.toList, extract_over_list_eq fs xs d]

/-- The two components of the loop over a mapping's values are the
concatenations, in iteration order, of the components of the recursive
results. -/
theorem extract_over_dict_eq (fs : String → Bool) :
    ∀ (es : NavEntries) (d : Nat),
      extract_md_files_over_dict fs es d
        = (((NavEntries.values es).map (fun v => (extract_md_files fs v d).1)).flatten,
           ((NavEntries.values es).map (fun v => (extract_md_files fs v d).2)).flatten)
  | .nil, d => by simp [extract_md_files_over_dict, NavEntries.values]
  | .cons k v es, d => by
    rw [extract_md_files_over_dict]
    simp [NavEntries.values, extract_over_dict_eq fs es d]

/-- Below the depth limit, a string leaf is a one-element result when
its file exists, and an empty result plus one warning naming the
missing path when it does not. -/
theorem extract_str_eq (fs : String → Bool) (s : String) (d : Nat) (hd : d ≤ 100) :
    extract_md_files fs (.str s) d
      = if fs (osPathJoin "docs" s) = true then ([s], [])
        else ([], ["Warning: Markdown file not found: " ++ osPathJoin "docs" s]) := by
  have hnd : ¬ 100 < d := Nat.not_lt.mpr hd
  unfold extract_md_files
  simp only [hnd, if_false]

mutual
/-- Every string in the flattened output passed the existence check:
its path joined under the documents root exists. -/
theorem mem_extract_exists (fs : String → Bool) (item : NavItem) (depth : Nat) :
    ∀ x ∈ (extract_md_files fs item depth).1, fs (osPathJoin "docs" x) = true := by
  intro x hx
  unfold extract_md_files at hx
  by_cases h : 100 < depth
  · simp [h] at hx
  · simp only [h, if_false] at hx
    match item with
    | .str s =>
      by_cases hf : fs (osPathJoin "docs" s) = true
      · simp [hf] at hx
        subst hx
        exact hf
      · simp [hf] at hx
    | .list subs => exact mem_extract_exists_list fs subs (depth + 1) x hx
    | .dict entries => exact mem_extract_exists_dict fs entries (depth + 1) x hx
    | .other t => simp at hx

theorem mem_extract_exists_list (fs : String → Bool) (items : NavItems) (depth : Nat) :
    ∀ x ∈ (extract_md_files_over_list fs items depth).1,
      fs (osPathJoin "docs" x) = true := by
  intro x hx
  match items with
  | .nil => simp [extract_md_files_over_list] at hx
  | .cons y ys =>
    unfold extract_md_files_over_list at hx
    simp only [List.mem_append] at hx
    rcases hx with h | h
    · exact mem_extract_exists fs y depth x h
    · exact mem_extract_exists_list fs ys depth x h

theorem mem_extract_exists_dict (fs : String → Bool) (entries : NavEntries) (depth : Nat) :
    ∀ x ∈ (extract_md_files_over_dict fs entries depth).1,
      fs (osPathJoin "docs" x) = true := by
  intro x hx
  match entries with
  | .nil => simp [extract_md_files_over_dict] at hx
  | .cons k v kvs =>
    unfold extract_md_files_over_dict at hx
    simp only [List.mem_append] at hx
    rcases hx with h | h
    · exact mem_extract_exists fs v depth x h
    · exact mem_extract_exists_dict fs kvs depth x h
end

/-- C1: for every navigation value the flattener is a deterministic
depth-first, left-to-right traversal: below the depth limit, a string
leaf contributes itself (filtered by existence), a sequence contributes
the concatenation of its elements' results in element order, and a
mapping contributes the concatenation of its values' results in
iteration order. -/
theorem claim_C1 (fs : String → Bool) (d : Nat) (hd : d ≤ 100) :
    (∀ s : String, (extract_md_files fs (.str s) d).1
        = if fs (osPathJoin "docs" s) = true then [s] else [])
    ∧ (∀ xs : NavItems, (extract_md_files fs (.list xs) d).1
        = ((NavItems.toList xs).map (fun x => (extract_md_files fs x (d + 1)).1)).flatten)
    ∧ (∀ es : NavEntries, (extract_md_files fs (.dict es) d).1
        = ((NavEntries.values es).map (fun v => (extract_md_files fs v (d + 1)).1)).flatten) := by
  have hnd : ¬ 100 < d := Nat.not_lt.mpr hd
  refine ⟨fun s => ?_, fun xs => ?_, fun es => ?_⟩
  · rw [extract_str_eq fs s d hd]
    by_cases hf : fs (osPathJoin "docs" s) = true <;> simp [hf]
  · conv_lhs => rw [extract_md_files]
    simp only [hnd, if_false]
    rw [extract_over_list_eq]
  · conv_lhs => rw [extract_md_files]
    simp only [hnd, if_false]
    rw [extract_over_dict_eq]

/-- Witness for C1 at a concrete input: a two-element list at depth 0. -/
theorem claim_C1_witness :
    (extract_md_files (fun _ => true)
        (.list (.cons (.str "intro.md") (.cons (.str "a.md") .nil))) 0).1
      = ((NavItems.toList (.cons (.str "intro.md") (.cons (.str "a.md") .nil))).map
          (fun x => (extract_md_files (fun _ => true) x 1).1)).flatten :=
  (claim_C1 (fun _ => true) 0 (by decide)).2.1 (.cons (.str "intro.md") (.cons (.str "a.md") .nil))

/-- C2: on the configuration whose navigation entry is the leaf
"intro.md" followed by a mapping of "Part 1" to the leaves "a.md" and
"b.md", with docs/intro.md and docs/a.md present and docs/b.md absent,
the flattened list is exactly "intro.md" then "a.md", and exactly one
warning, naming docs/b.md, is emitted. -/
theorem claim_C2 :
    extract_md_files fsC2 (navOf configC2) 0
      = (["intro.md", "a.md"], ["Warning: Markdown file not found: docs/b.md"]) := by
  decide

/-- C9: below the depth limit, a navigation value that is neither a
string nor a sequence nor a mapping contributes no output and emits no
warning. -/
theorem claim_C9 (fs : String → Bool) (tag : String) (d : Nat) (hd : d ≤ 100) :
    extract_md_files fs (.other tag) d = ([], []) := by
  have hnd : ¬ 100 < d := Nat.not_lt.mpr hd
  unfold extract_md_files
  simp only [hnd, if_false]

/-- Witness for C9: a scalar (a number, say) at depth 0. -/
theorem claim_C9_witness :
    extract_md_files (fun _ => true) (.other "3.14") 0 = ([], []) :=
  claim_C9 (fun _ => true) "3.14" 0 (by decide)

set_option maxRecDepth 8000 in
/-- C3: the recursion is depth-guarded: any call at depth greater than
100 returns the empty result with one warning, without recursing
further; in particular a value of 150 nested single-element lists
flattens, from depth 0, to the empty list with one warning. -/
theorem claim_C3 (fs : String → Bool) (item : NavItem) (d : Nat) (hd : 100 < d) :
    (extract_md_files fs item d = ([], ["Warning: Infinite recursion detected"]))
    ∧ (extract_md_files (fun _ => true) (deepNest 150) 0
        = ([], ["Warning: Infinite recursion detected"])) := by
  constructor
  · unfold extract_md_files
    simp only [hd, if_true]
  · decide

/-- Witness for C3: a leaf reached at depth 101. -/
theorem claim_C3_witness :
    (extract_md_files (fun _ => true) (.str "x") 101
        = ([], ["Warning: Infinite recursion detected"]))
    ∧ (extract_md_files (fun _ => true) (deepNest 150) 0
        = ([], ["Warning: Infinite recursion detected"])) :=
  claim_C3 (fun _ => true) (.str "x") 101 (by decide)

/-- C4: below the depth limit, a string leaf whose file exists is
emitted as a one-element result, and one whose file is absent emits
nothing and exactly one warning naming the missing path; moreover a
string whose joined path does not exist never appears anywhere in the
flattened output, at any depth and for any navigation value. -/
theorem claim_C4 (fs : String → Bool) (s : String) (d : Nat) (hd : d ≤ 100) :
    (extract_md_files fs (.str s) d
      = if fs (osPathJoin "docs" s) = true then ([s], [])
        else ([], ["Warning: Markdown file not found: " ++ osPathJoin "docs" s]))
    ∧ (fs (osPathJoin "docs" s) = false →
        ∀ (item : NavItem) (d' : Nat), s ∉ (extract_md_files fs item d').1) := by
  refine ⟨extract_str_eq fs s d hd, fun hmiss item d' hmem => ?_⟩
  have := mem_extract_exists fs item d' s hmem
  rw [hmiss] at this
  exact Bool.false_ne_true this

/-- Witness for C4: a missing leaf at depth 0 warns and is absent from
the output of another traversal. -/
theorem claim_C4_witness :
    (extract_md_files (fun _ => false) (.str "m.md") 0
      = if (fun _ => false : String → Bool) (osPathJoin "docs" "m.md") = true
        then (["m.md"], [])
        else ([], ["Warning: Markdown file not found: " ++ osPathJoin "docs" "m.md"]))
    ∧ "m.md" ∉ (extract_md_files (fun _ => false)
        (.list (.cons (.str "m.md") .nil)) 0).1 :=
  ⟨(claim_C4 (fun _ => false) "m.md" 0 (by decide)).1,
   (claim_C4 (fun _ => false) "m.md" 0 (by decide)).2 rfl (.list (.cons (.str "m.md") .nil)) 0⟩

/-! ## Theorems about asset discovery and the resource path -/

/-- C5: a string belongs to the result of find_asset_dirs exactly when
some walked directory has a subdirectory whose name ends in ".assets"
of which it is one of the four recorded path variants; the result is
duplicate-free (it models a set). -/
theorem claim_C5 (root : String) (t : DirTree) (x : String) :
    (x ∈ find_asset_dirs root t
      ↔ ∃ e ∈ walk root t, ∃ d ∈ e.2,
          strEndsWith d ".assets" = true ∧ x ∈ assetVariants root e.1 d)
    ∧ (find_asset_dirs root t).Nodup := by
  constructor
  · unfold find_asset_dirs
    rw [List.mem_dedup]
    simp only [List.mem_flatMap, List.mem_filter]
    constructor
    · rintro ⟨e, he, d, ⟨hd, hsuf⟩, hx⟩
      exact ⟨e, he, d, hd, hsuf, hx⟩
    · rintro ⟨e, he, d, hd, hsuf, hx⟩
      exact ⟨e, he, d, ⟨hd, hsuf⟩, hx⟩
  · exact List.nodup_dedup _

/-- One unfolding step of the lexicographic order. -/
theorem lexLe_step (x y : Char) (xs ys : List Char) :
    lexLe (x :: xs) (y :: ys) = true ↔ (x < y ∨ (x = y ∧ lexLe xs ys = true)) := by
  simp only [lexLe]
  by_cases h1 : x < y
  · simp [h1]
  · by_cases h2 : x = y
    · simp [h1, h2]
    · simp [h1, h2]

/-- The lexicographic order is transitive. -/
theorem lexLe_trans : ∀ (a b c : List Char),
    lexLe a b = true → lexLe b c = true → lexLe a c = true
  | [], _, _, _, _ => rfl
  | _ :: _, [], _, h1, _ => by simp [lexLe] at h1
  | _ :: _, _ :: _, [], _, h2 => by simp [lexLe] at h2
  | x :: xs, y :: ys, z :: zs, h1, h2 => by
    rw [lexLe_step] at h1 h2 ⊢
    rcases h1 with h1 | ⟨rfl, h1⟩
    · rcases h2 with h2 | ⟨rfl, h2⟩
      · exact Or.inl (lt_trans h1 h2)
      · exact Or.inl h1
    · rcases h2 with h2 | ⟨rfl, h2⟩
      · exact Or.inl h2
      · exact Or.inr ⟨rfl, lexLe_trans xs ys zs h1 h2⟩

/-- The lexicographic order is total. -/
theorem lexLe_total : ∀ (a b : List Char), lexLe a b = true ∨ lexLe b a = true
  | [], _ => Or.inl rfl
  | _ :: _, [] => Or.inr rfl
  | x :: xs, y :: ys => by
    rw [lexLe_step, lexLe_step]
    rcases lt_trichotomy x y with h | h | h
    · exact Or.inl (Or.inl h)
    · subst h
      rcases lexLe_total xs ys with h | h
      · exact Or.inl (Or.inr ⟨rfl, h⟩)
      · exact Or.inr (Or.inr ⟨rfl, h⟩)
    · exact Or.inr (Or.inl h)

/-- C6: the resource-path argument is the colon-join of all_dirs, which
is sorted, duplicate-free, contains exactly the union of the fixed base
directories, the discovered asset directories and (conditionally) the
sibling assets directory, and contains the sibling assets directory
whenever it is present on disk. -/
theorem claim_C6 (parentAssetsExists : Bool) (asset_dirs : List String) :
    resource_path parentAssetsExists asset_dirs
        = String.intercalate ":" (all_dirs parentAssetsExists asset_dirs)
    ∧ List.Sorted (fun a b => strLe a b = true) (all_dirs parentAssetsExists asset_dirs)
    ∧ (all_dirs parentAssetsExists asset_dirs).Nodup
    ∧ (∀ x, x ∈ all_dirs parentAssetsExists asset_dirs
        ↔ x ∈ base_dirs ∨ x ∈ asset_dirs
          ∨ (parentAssetsExists = true ∧ x = osPathJoin ".." "assets"))
    ∧ (parentAssetsExists = true →
        osPathJoin ".." "assets" ∈ all_dirs parentAssetsExists asset_dirs) := by
  haveI : IsTotal String (fun a b => strLe a b = true) :=
    ⟨fun a b => lexLe_total a.data b.data⟩
  haveI : IsTrans String (fun a b => strLe a b = true) :=
    ⟨fun a b c => lexLe_trans a.data b.data c.data⟩
  have hmem : ∀ x, x ∈ all_dirs parentAssetsExists asset_dirs
      ↔ x ∈ base_dirs ∨ x ∈ asset_dirs
        ∨ (parentAssetsExists = true ∧ x = osPathJoin ".." "assets") := by
    intro x
    unfold all_dirs
    rw [(List.perm_insertionSort _ _).mem_iff, List.mem_dedup]
    cases parentAssetsExists
    all_goals simp [List.mem_append]
    all_goals tauto
  refine ⟨rfl, List.sorted_insertionSort _ _,
    (List.perm_insertionSort _ _).symm.nodup (List.nodup_dedup _), hmem,
    fun hp => (hmem _).mpr (Or.inr (Or.inr ⟨hp, rfl⟩))⟩

/-! ## Theorems about the subprocess phase -/

/-- A string with a non-empty prefix is non-empty. -/
theorem string_append_ne_empty (s t : String) (h : s ≠ "") : s ++ t ≠ "" := by
  intro he
  apply h
  have hd : s.data ++ t.data = [] := by
    have hc := congrArg String.data he
    simpa [String.data_append] using hc
  exact String.ext (by simp [List.append_eq_nil.mp hd])

/-- C7: on a timeout of the external tool the program exits with status
1, prints the timeout message to the error stream, and the trace holds
exactly one invocation of the tool (no retry). -/
theorem claim_C7 (cmd : List String) (e : TimeoutInfo)
    (mediaDirExists : Bool) (rmtreeError : Option String) :
    (runPhase cmd (.timedOut e) mediaDirExists rmtreeError).2 = 1
    ∧ Event.printErr ("Pandoc timed out: " ++ e.msg)
        ∈ (runPhase cmd (.timedOut e) mediaDirExists rmtreeError).1
    ∧ ((runPhase cmd (.timedOut e) mediaDirExists rmtreeError).1.filter
        isRunToolEvent).length = 1 := by
  refine ⟨rfl, ?_, rfl⟩
  simp [runPhase]

/-- C8: after a completed run, captured stdout is always echoed,
captured stderr is echoed exactly when non-empty, a non-zero tool
status is reported and fatal (exit 1), and a zero tool status leads to
exit 0 with the media directory removal attempted when it exists and
any removal failure reported to the error stream without changing the
exit status. -/
theorem claim_C8 (cmd : List String) (out err : String) (rc : Int)
    (mediaDirExists : Bool) (rmtreeError : Option String) :
    Event.printOut out
        ∈ (runPhase cmd (.completed out err rc) mediaDirExists rmtreeError).1
    ∧ (Event.printErr err
        ∈ (runPhase cmd (.completed out err rc) mediaDirExists rmtreeError).1
        ↔ err ≠ "")
    ∧ (rc ≠ 0 →
        (runPhase cmd (.completed out err rc) mediaDirExists rmtreeError).2 = 1
        ∧ Event.printErr ("Pandoc failed with return code " ++ toString rc)
            ∈ (runPhase cmd (.completed out err rc) mediaDirExists rmtreeError).1)
    ∧ (rc = 0 →
        (runPhase cmd (.completed out err rc) mediaDirExists rmtreeError).2 = 0)
    ∧ (rc = 0 → mediaDirExists = true →
        Event.removeDir "extracted-media"
          ∈ (runPhase cmd (.completed out err rc) mediaDirExists rmtreeError).1)
    ∧ (rc = 0 → mediaDirExists = true → ∀ emsg, rmtreeError = some emsg →
        Event.printErr ("Error cleaning up extracted-media: " ++ emsg)
          ∈ (runPhase cmd (.completed out err rc) mediaDirExists rmtreeError).1) := by
  have hfail : ("Pandoc failed with return code " ++ toString rc) ≠ "" :=
    string_append_ne_empty _ _ (by decide)
  have hclean : ∀ emsg, ("Error cleaning up extracted-media: " ++ emsg) ≠ "" :=
    fun emsg => string_append_ne_empty _ _ (by decide)
  by_cases hrc : rc = 0 <;> by_cases herr : err = "" <;>
    cases mediaDirExists <;> rcases rmtreeError with _ | emsg <;>
      simp [runPhase, hrc, herr, Ne.symm hfail, fun e => Ne.symm (hclean e)]

/-! ## Theorems about the input-file arguments -/

/-- Joining a non-empty relative entry under the documents root yields
a non-empty path. -/
theorem osPathJoin_docs_ne_empty (md : String) (h : md ≠ "") :
    osPathJoin "docs" md ≠ "" := by
  unfold osPathJoin
  by_cases hs : startsWithSep md = true
  · simpa [hs] using h
  · simp only [hs, Bool.false_eq_true, if_false]
    have hcond : (decide ("docs" = "") || endsWithSep "docs") = false := by decide
    simp only [hcond, Bool.false_eq_true, if_false]
    exact string_append_ne_empty _ _ (by decide)

/-- Joining a non-empty relative entry under the documents root never
yields the bare documents root path "docs/" that the empty entry would
produce. -/
theorem osPathJoin_docs_ne_docsSlash (md : String) (h : md ≠ "") :
    osPathJoin "docs" md ≠ "docs/" := by
  unfold osPathJoin
  by_cases hs : startsWithSep md = true
  · simp only [hs, if_true]
    intro heq
    rw [heq] at hs
    exact absurd hs (by decide)
  · simp only [hs, Bool.false_eq_true, if_false]
    have hcond : (decide ("docs" = "") || endsWithSep "docs") = false := by decide
    simp only [hcond, Bool.false_eq_true, if_false]
    intro heq
    apply h
    have h2 : ("docs/" ++ md) = "docs/" := by
      rw [show ("docs/" : String) = "docs" ++ "/" from rfl]
      simpa [String.append_assoc] using heq
    have h3 : md.data = [] := by
      have hc := congrArg String.data h2
      simpa [String.data_append] using hc
    exact String.ext (by simp [h3])

/-- C10: the input-file arguments handed to the external tool (the
command line past its 19 fixed arguments) are exactly the non-empty
flattened entries, each joined under the documents root, in flattened
order; neither the empty string nor the bare documents root path ever
appears among them, even though an empty-string leaf can pass the
existence check (its joined path is the documents root path) and hence
reach the flattened list. -/
theorem claim_C10 (fs : String → Bool) (config : List (String × NavItem)) (rp : String) :
    ((pandocCmd rp (md_files_prefixed (extract_md_files fs (navOf config) 0).1)).drop 19
        = ((extract_md_files fs (navOf config) 0).1.filter (fun md => md ≠ "")).map
            (fun md => osPathJoin "docs" md))
    ∧ ("" ∉ (pandocCmd rp
        (md_files_prefixed (extract_md_files fs (navOf config) 0).1)).drop 19)
    ∧ ("docs/" ∉ (pandocCmd rp
        (md_files_prefixed (extract_md_files fs (navOf config) 0).1)).drop 19)
    ∧ osPathJoin "docs" "" = "docs/"
    ∧ (extract_md_files (fun p => decide (p = "docs/")) (.str "") 0).1 = [""] := by
  have hdrop : ∀ l : List String, (pandocCmd rp l).drop 19 = l := fun l => rfl
  refine ⟨hdrop _, ?_, ?_, by decide, by decide⟩
  · rw [hdrop]
    intro hmem
    unfold md_files_prefixed at hmem
    simp only [List.mem_map, List.mem_filter, decide_eq_true_eq] at hmem
    obtain ⟨md, ⟨_, hne⟩, heq⟩ := hmem
    exact osPathJoin_docs_ne_empty md hne heq
  · rw [hdrop]
    intro hmem
    unfold md_files_prefixed at hmem
    simp only [List.mem_map, List.mem_filter, decide_eq_true_eq] at hmem
    obtain ⟨md, ⟨_, hne⟩, heq⟩ := hmem
    exact osPathJoin_docs_ne_docsSlash md hne heq
